import Mathlib

set_option maxHeartbeats 1000000

namespace LlamaSpec

/-! Shallow embedding of the resilient data-access layer of the
`llama_inspector` repository: TTL cache, price aggregator, retry policy,
endpoint pool, discovery loop, batch calls, error classification,
rate limiter and loan queries, each translated from the cited Python
source, with theorems settling the specification's claims about them. -/

namespace FileCache

/-! `src/src/utils/cache.py`, class `Cache`.  The in-memory store
`self.data` is a dict `key -> (value, expiration_time)`, expiration `0`
meaning "no expiration".  We model the dict as an association list with
unique keys (the head binding is the current one); wall-clock time is an
explicit `Nat` argument. -/

/-- Keys of a store, in order. -/
def keys {α : Type} (d : List (String × α × Nat)) : List String :=
  d.map (fun e => e.1)

/-- Dict lookup: the first binding of `k`. -/
def lookup {α : Type} (d : List (String × α × Nat)) (k : String) : Option (α × Nat) :=
  match d with
  | [] => none
  | (k₁, v, e) :: rest => if k₁ = k then some (v, e) else lookup rest k

/-- Remove every binding of `k` (dict overwrite, modulo ordering). -/
def eraseKey {α : Type} (d : List (String × α × Nat)) (k : String) :
    List (String × α × Nat) :=
  d.filter (fun e => decide (e.1 ≠ k))

/-- Model of `Cache.set(key, value, ttl)` at wall-clock time `now`:
`expiration = time.time() + ttl` when a ttl is given, else `0`;
the binding for `key` is overwritten (then `_save` persists the store). -/
def set {α : Type} (d : List (String × α × Nat)) (k : String) (v : α)
    (ttl : Option Nat) (now : Nat) : List (String × α × Nat) :=
  (k, v, match ttl with | some t => now + t | none => 0) :: eraseKey d k

/-- Model of `Cache.get(key)` at wall-clock time `now`: absent keys give `none`;
an entry with `expiration > 0 and time.time() > expiration` is deleted
(lazy eviction, with a `_save`) and `none` is returned; otherwise the
stored value is returned.  Returns the value and the updated store. -/
def get {α : Type} (d : List (String × α × Nat)) (k : String) (now : Nat) :
    Option α × List (String × α × Nat) :=
  match lookup d k with
  | none => (none, d)
  | some (v, e) => if 0 < e ∧ e < now then (none, eraseKey d k) else (some v, d)

/-- Model of the Python values the program caches: JSON-native strings and
ints, and `Decimal` prices (a `Decimal` is modelled as a rational). -/
inductive PyValue where
  | str : String → PyValue
  | int : Int → PyValue
  | decimal : ℚ → PyValue
deriving DecidableEq

/-- Model of `str(obj)` on a `Decimal` (the exact digit string is
irrelevant to the claims; what matters is that the result is a string). -/
def decimalStr (q : ℚ) : String := reprStr q

/-- Model of what one cached value looks like after `json.dump(...,
cls=DecimalEncoder)` and a later plain `json.load`: `DecimalEncoder.default`
replaces a `Decimal` by `str(obj)` and nothing converts it back on load,
while JSON-native strings and ints come back unchanged.  (The
`(value, expiration)` tuple comes back as a list, which `__init__`
rebuilds into a pair `(v[0], v[1])` — value-preserving, so not modelled.) -/
def jsonValue : PyValue → PyValue
  | PyValue.decimal q => PyValue.str (decimalStr q)
  | PyValue.str s => PyValue.str s
  | PyValue.int n => PyValue.int n

/-- Model of `Cache._save`: the whole store is serialized with
`DecimalEncoder` and atomically written, so the file read back by a later
`json.load` holds every entry with its value JSON-encoded (`jsonValue`),
keys and expirations unchanged. -/
def save (d : List (String × PyValue × Nat)) : List (String × PyValue × Nat) :=
  d.map (fun e => (e.1, jsonValue e.2.1, e.2.2))

/-- Model of `Cache.__init__` finding an existing cache file with contents `d`:
entries are kept iff `v[1] == 0 or v[1] > current_time`. -/
def load {α : Type} (d : List (String × α × Nat)) (now : Nat) :
    List (String × α × Nat) :=
  d.filter (fun e => decide (e.2.2 = 0 ∨ now < e.2.2))

/-- One recorded `set` request: key, value, optional ttl, and the
wall-clock time at which the `set` happened. -/
structure SetOp (α : Type) where
  key : String
  value : α
  ttl : Option Nat
  time : Nat

/-- Replay a sequence of `set` operations on a store. -/
def applyHistory {α : Type} (ops : List (SetOp α)) (d : List (String × α × Nat)) :
    List (String × α × Nat) :=
  ops.foldl (fun d op => set d op.key op.value op.ttl op.time) d

end FileCache

namespace Aggregator

/-! `src/src/price_feeds/aggregator.py`, `PriceFeedAggregator.get_price`;
prices (Python `Decimal`) are modelled as rationals. -/

/-- Outcome of `feed.get_price(token_address)` for one configured feed:
the call either raises or returns an optional price. -/
inductive FeedOutcome where
  | raises : FeedOutcome
  | returns : Option ℚ → FeedOutcome
deriving DecidableEq

/-- The `for feed in self.price_feeds` loop: the first feed whose result
satisfies `price is not None and price > 0` wins; an exception or an
unusable result falls through to the next feed.  Returns the result and
the number of feeds consulted. -/
def tryFeeds : List FeedOutcome → Option ℚ × Nat
  | [] => (none, 0)
  | FeedOutcome.raises :: rest =>
    let r := tryFeeds rest
    (r.1, r.2 + 1)
  | FeedOutcome.returns none :: rest =>
    let r := tryFeeds rest
    (r.1, r.2 + 1)
  | FeedOutcome.returns (some p) :: rest =>
    if 0 < p then (some p, 1)
    else
      let r := tryFeeds rest
      (r.1, r.2 + 1)

/-- Model of `PriceFeedAggregator.get_price` for one token: a cache hit
short-circuits; on a miss the feeds are consulted in priority order and a
winning price is written to the cache.  Returns the result, the token's
cache entry afterwards, and the number of feeds consulted. -/
def get_price (cached : Option ℚ) (feeds : List FeedOutcome) :
    Option ℚ × Option ℚ × Nat :=
  match cached with
  | some c => (some c, some c, 0)
  | none =>
    let r := tryFeeds feeds
    match r.1 with
    | some p => (some p, some p, r.2)
    | none => (none, none, r.2)

/-- A feed outcome that the loop accepts. -/
def accepted : FeedOutcome → Prop
  | FeedOutcome.returns (some p) => 0 < p
  | _ => False

instance : DecidablePred accepted := by
  intro f
  cases f with
  | raises => exact Decidable.isFalse (fun h => h)
  | returns p =>
    cases p with
    | none => exact Decidable.isFalse (fun h => h)
    | some v => exact inferInstanceAs (Decidable (0 < v))

end Aggregator

namespace Retry

/-! `src/src/utils/rate_limiter.py`, decorator `retry_forever`:
retry an async operation until success or 15 elapsed seconds, with
exponential backoff `min(30, 1 * 2 ** attempt)` between failures. -/

/-- Outcome of one invocation of the wrapped operation. -/
inductive CallOutcome (α : Type) where
  | ok : α → CallOutcome α
  | fails : CallOutcome α

/-- Constant `REQUEST_TIMEOUT = 15` seconds. -/
def REQUEST_TIMEOUT : Nat := 15

/-- The `while True` loop of `retry_forever`, for an operation whose
`n`-th invocation has outcome `op n` and takes `dur n` seconds.
Arguments: invocation index, elapsed seconds since `start_time`, and the
backoff `attempt` counter.  Returns the result together with the elapsed
time at the moment of return. -/
def loop {α : Type} (op : Nat → CallOutcome α) (dur : Nat → Nat) :
    Nat → Nat → Nat → Option α × Nat
  | n, elapsed, attempt =>
    match op n with
    | CallOutcome.ok v => (some v, elapsed + dur n)
    | CallOutcome.fails =>
      if REQUEST_TIMEOUT ≤ elapsed + dur n then (none, elapsed + dur n)
      else loop op dur (n + 1) (elapsed + dur n + min 30 (2 ^ attempt)) (attempt + 1)
termination_by _n elapsed _a => REQUEST_TIMEOUT - elapsed
decreasing_by
  simp only [REQUEST_TIMEOUT] at *
  have h2 : 1 ≤ 2 ^ attempt := Nat.one_le_two_pow
  omega

/-- Model of `retry_forever(func)(...)`: run the loop from a fresh start time. -/
def retry_forever {α : Type} (op : Nat → CallOutcome α) (dur : Nat → Nat) :
    Option α × Nat :=
  loop op dur 0 0 0

end Retry

namespace Endpoint

/-! `src/src/utils/contract_queries.py`, the `RPCEndpoint` class nested in
`_initialize_rpc_endpoints` (times in seconds as `Nat`; `datetime.now()`
is the explicit `now` argument), and the provider-selection state of
`src/src/contracts/provider_pool.py`, class `Web3ProviderPool`. -/

structure RPCEndpoint where
  url : String
  last_used : Option Nat
  cooldown : Nat
  is_active : Bool
  error_count : Nat
deriving DecidableEq

/-- Model of `RPCEndpoint.__init__(url, cooldown_minutes=5)`. -/
def init (url : String) (cooldown : Nat) : RPCEndpoint :=
  { url := url, last_used := none, cooldown := cooldown,
    is_active := true, error_count := 0 }

/-- Model of `can_use`: inactive endpoints and endpoints with ≥ 3 errors are
unusable; a never-used endpoint is usable; otherwise the cooldown must
have elapsed since `last_used`. -/
def can_use (e : RPCEndpoint) (now : Nat) : Bool :=
  if e.is_active = false ∨ 3 ≤ e.error_count then false
  else
    match e.last_used with
    | none => true
    | some t => decide (t + e.cooldown ≤ now)

/-- Model of `mark_used`: record the time of use. -/
def mark_used (e : RPCEndpoint) (now : Nat) : RPCEndpoint :=
  { e with last_used := some now }

/-- Model of `mark_error`: increment the error count, deactivating at 3. -/
def mark_error (e : RPCEndpoint) : RPCEndpoint :=
  { e with error_count := e.error_count + 1,
           is_active := if 3 ≤ e.error_count + 1 then false else e.is_active }

/-- Model of `reset_errors`: clear the error count and reactivate. -/
def reset_errors (e : RPCEndpoint) : RPCEndpoint :=
  { e with error_count := 0, is_active := true }

/-- Model of `check_cooldown`: a disabled endpoint that has been used and whose
cooldown has elapsed is reactivated with its errors reset; returns
whether reactivation happened, with the resulting state. -/
def check_cooldown (e : RPCEndpoint) (now : Nat) : Bool × RPCEndpoint :=
  match e.last_used with
  | some t =>
    if e.is_active = false ∧ t + e.cooldown ≤ now then (true, reset_errors e)
    else (false, e)
  | none => (false, e)

/-- Selection state of `Web3ProviderPool` (providers are identified by
their URLs; `requests` is `_requests_with_current`). -/
structure ProviderPool where
  urls : List String
  disabled : List String
  current : Nat
  requests : Nat
deriving DecidableEq

/-- Constant `MAX_REQUESTS_PER_PROVIDER = 10`. -/
def MAX_REQUESTS_PER_PROVIDER : Nat := 10

/-- Model of `Web3ProviderPool.get_provider`: filter out disabled providers,
rotate after `MAX_REQUESTS_PER_PROVIDER` requests, and return
`active_providers[self.current_provider % len(active_providers)]`. -/
def get_provider (p : ProviderPool) : Option (String × ProviderPool) :=
  let active := p.urls.filter (fun u => decide (u ∉ p.disabled))
  if h : active = [] then none
  else
    let cur := if MAX_REQUESTS_PER_PROVIDER ≤ p.requests
      then (p.current + 1) % active.length else p.current
    let reqs := if MAX_REQUESTS_PER_PROVIDER ≤ p.requests then 0 else p.requests
    some (active.get ⟨cur % active.length,
            Nat.mod_lt _ (List.length_pos.mpr h)⟩,
          { p with current := cur, requests := reqs + 1 })

/-- Model of `Web3ProviderPool.disable_provider`. -/
def disable_provider (p : ProviderPool) (url : String) : ProviderPool :=
  if url ∈ p.disabled then p
  else { p with disabled := url :: p.disabled, requests := 0 }

end Endpoint

namespace Discovery

/-! `src/src/utils/contract_queries.py`, the address-collection loop of
`ContractQueries.get_loans` (reading `admin.functions.loans(index)` at
sequentially increasing indices). -/

/-- Outcome of reading `loans(index)` under `_retry_with_backoff`. -/
inductive ReadResult where
  | addr : String → ReadResult  -- a nonzero address
  | zero : ReadResult           -- falsy or zero-address result
  | err : Bool → ReadResult     -- raised; `true` means a rate-limit error
deriving DecidableEq

/-- The `while True` collection loop: append nonzero addresses read at
increasing indices; break on a zero/empty address, on a rate-limit
error, or on any other error.  `fuel` bounds the iterations of the
model; the claim theorem shows the result is the same for every
sufficiently large fuel, which is the loop's termination. -/
def collectLoanAddresses (read : Nat → ReadResult) : Nat → Nat → List String
  | 0, _ => []
  | fuel + 1, i =>
    match read i with
    | ReadResult.addr a => a :: collectLoanAddresses read fuel (i + 1)
    | _ => []

end Discovery

namespace Batch

/-! `src/src/contracts/provider_pool.py`, the per-call loop inside
`Web3ProviderPool.batch_call_contract`: each `call.call()` either
returns a value or raises, and a raising call contributes `None`
while iteration continues with its siblings. -/

/-- The `for call in calls` loop over the outcomes of the calls. -/
def batchCallResults {α : Type} (calls : List (Except Unit α)) : List (Option α) :=
  calls.map (fun c =>
    match c with
    | Except.ok v => some v
    | Except.error _ => none)

end Batch

namespace Classify

/-! `src/src/utils/contract_queries.py`, `ContractQueries._retry_with_backoff`:
error classification and the per-iteration retry decision
(`self.max_retries = 3`, `self.retry_delay = 2`). -/

/-- Model of `str.lower()` (strings as character lists; error texts are ASCII). -/
def lowerChars (s : List Char) : List Char := s.map Char.toLower

/-- Prefix test used by the substring test. -/
def isPrefixChars : List Char → List Char → Bool
  | [], _ => true
  | _ :: _, [] => false
  | c :: cs, d :: ds => decide (c = d) && isPrefixChars cs ds

/-- Python `pat in s` (substring test over characters). -/
def containsSub : List Char → List Char → Bool
  | [], pat => isPrefixChars pat []
  | c :: rest, pat => isPrefixChars pat (c :: rest) || containsSub rest pat

/-- The rate-limit indicator substrings tested by `_retry_with_backoff`. -/
def rateLimitIndicators : List (List Char) :=
  ["429".data, "rate".data, "limit".data, "unauthorized".data, "401".data]

/-- Model of `any(err in str(e).lower() for err in ['429', 'rate', 'limit',
'unauthorized', '401'])`. -/
def isRateLimitError (msg : List Char) : Bool :=
  rateLimitIndicators.any (fun pat => containsSub (lowerChars msg) pat)

/-- What one iteration of the `while attempt < self.max_retries` loop in
`_retry_with_backoff` does after a failed call. -/
inductive RetryAction where
  | rotateRetry : RetryAction            -- rotate endpoints, retry at once, attempt unchanged
  | sleepRetry : Nat → Nat → RetryAction -- sleep the delay, with the new attempt value
  | raiseErr : RetryAction               -- re-raise the error
deriving DecidableEq

/-- Constant `self.max_retries`. -/
def maxRetries : Nat := 3

/-- Constant `self.retry_delay` (seconds). -/
def retryDelay : Nat := 2

/-- One iteration of `_retry_with_backoff` after a failure with error
text `msg`, where `rotated` says whether `_handle_rate_limit()` found a
fresh endpoint: rate-limit errors rotate and retry without touching
`attempt`; other errors increment `attempt` and sleep
`self.retry_delay * (2 ** attempt)` unless the retries are exhausted. -/
def retryStep (attempt : Nat) (msg : List Char) (rotated : Bool) : RetryAction :=
  if isRateLimitError msg then
    if rotated then RetryAction.rotateRetry else RetryAction.raiseErr
  else
    if maxRetries ≤ attempt + 1 then RetryAction.raiseErr
    else RetryAction.sleepRetry (retryDelay * 2 ^ (attempt + 1)) (attempt + 1)

end Classify

namespace Limiter

/-! `src/src/utils/rate_limiter.py`, class `RateLimiter` with
`requests_per_second = k` and `min_interval = 1.0 / k`; times are
rationals. -/

/-- Model of `RateLimiter.wait`, idealized timing: entered with state
`last_request = last` at clock value `now`, the call completes — and
sets `last_request` — at `last + 1/k` after sleeping when
`now - last < 1/k`, and at `now` otherwise. -/
def waitCompletion (k : Nat) (last now : ℚ) : ℚ :=
  if now - last < 1 / k then last + 1 / k else now

/-- Completion times of a sequence of `wait()` calls serialized by the
limiter's lock, the `n`-th call reading clock value `arrival n` on
entry; `last_request` starts at `0`. -/
def completions (k : Nat) (arrival : Nat → ℚ) : Nat → ℚ
  | 0 => waitCompletion k 0 (arrival 0)
  | n + 1 => waitCompletion k (completions k arrival n) (arrival (n + 1))

end Limiter

namespace Loans

/-! `src/src/utils/contract_queries.py`, `ContractQueries.get_loan_info`
and `get_multiple_loan_info`; `user_state` returns a tuple of uint256
values modelled as `List Nat`. -/

structure LoanInfo where
  user_address : String
  debt : Nat
  collateral : Nat
  is_liquidated : Bool
deriving DecidableEq

/-- Lookup in `self._loan_info_cache` (keyed by
`f"{admin.address}_{user_address}"`). -/
def lookupLoan (cache : List (String × LoanInfo)) (key : String) : Option LoanInfo :=
  match cache with
  | [] => none
  | (k, info) :: rest => if k = key then some info else lookupLoan rest key

/-- Model of `ContractQueries.get_loan_info`: a cache hit returns the cached
record; otherwise `user_state` is consulted (`userState` is its result,
`none` when the call raises); a result with fewer than 3 fields or with
`debt == 0` yields no record; otherwise a record with
`collateral = result[0]` and `debt = result[2]` is produced and cached. -/
def get_loan_info (cache : List (String × LoanInfo)) (adminAddr user : String)
    (userState : Option (List Nat)) : Option LoanInfo × List (String × LoanInfo) :=
  match lookupLoan cache (adminAddr ++ "_" ++ user) with
  | some info => (some info, cache)
  | none =>
    match userState with
    | none => (none, cache)
    | some res =>
      if res.length < 3 then (none, cache)
      else
        if res.getD 2 0 = 0 then (none, cache)
        else
          (some { user_address := user, debt := res.getD 2 0,
                  collateral := res.getD 0 0, is_liquidated := false },
           (adminAddr ++ "_" ++ user,
            { user_address := user, debt := res.getD 2 0,
              collateral := res.getD 0 0, is_liquidated := false }) :: cache)

/-- Per-user step of `get_multiple_loan_info`: fetch the user's record and
keep it only `if loan_info and loan_info['debt'] > 0`. -/
def multiStep (adminAddr : String) (states : String → Option (List Nat))
    (acc : List LoanInfo × List (String × LoanInfo)) (u : String) :
    List LoanInfo × List (String × LoanInfo) :=
  match (get_loan_info acc.2 adminAddr u (states u)).1 with
  | some info =>
    if 0 < info.debt
      then (acc.1 ++ [info], (get_loan_info acc.2 adminAddr u (states u)).2)
      else (acc.1, (get_loan_info acc.2 adminAddr u (states u)).2)
  | none => (acc.1, (get_loan_info acc.2 adminAddr u (states u)).2)

/-- Model of `ContractQueries.get_multiple_loan_info` (the model collects results
in submission order; the Python version collects in completion order). -/
def get_multiple_loan_info (cache : List (String × LoanInfo)) (adminAddr : String)
    (users : List String) (states : String → Option (List Nat)) :
    List LoanInfo × List (String × LoanInfo) :=
  users.foldl (multiStep adminAddr states) ([], cache)

end Loans

/-! ### Theorems -/

namespace FileCache

theorem lookup_eq_none_of_not_mem {α : Type} (d : List (String × α × Nat))
    (k : String) (h : k ∉ keys d) : lookup d k = none := by
  induction d with
  | nil => rfl
  | cons hd tl ih =>
    obtain ⟨k₁, v, e⟩ := hd
    simp only [keys, List.map_cons, List.mem_cons, not_or] at h
    simp only [lookup]
    rw [if_neg (fun hk => h.1 hk.symm)]
    exact ih (by simpa [keys] using h.2)

theorem lookup_eraseKey {α : Type} (d : List (String × α × Nat)) (k : String) :
    lookup (eraseKey d k) k = none := by
  apply lookup_eq_none_of_not_mem
  intro hmem
  simp only [keys, eraseKey, List.mem_map] at hmem
  obtain ⟨e, he, hek⟩ := hmem
  rw [List.mem_filter] at he
  exact (by simpa [hek] using he.2)

theorem lookup_set_self {α : Type} (d : List (String × α × Nat)) (k : String)
    (v : α) (ttl : Option Nat) (now : Nat) :
    lookup (set d k v ttl now) k
      = some (v, match ttl with | some t => now + t | none => 0) := by
  simp [set, lookup]

theorem keys_eraseKey_sublist {α : Type} (d : List (String × α × Nat)) (k : String) :
    (keys (eraseKey d k)).Sublist (keys d) :=
  List.Sublist.map _ (List.filter_sublist d)

theorem nodup_keys_set {α : Type} (d : List (String × α × Nat)) (k : String)
    (v : α) (ttl : Option Nat) (now : Nat) (h : (keys d).Nodup) :
    (keys (set d k v ttl now)).Nodup := by
  refine List.Nodup.cons ?_ (h.sublist (keys_eraseKey_sublist d k))
  intro hmem
  simp only [keys, eraseKey, List.mem_map] at hmem
  obtain ⟨e, he, hek⟩ := hmem
  rw [List.mem_filter] at he
  exact (by simpa [hek] using he.2)

theorem nodup_keys_applyHistory {α : Type} (ops : List (SetOp α))
    (d : List (String × α × Nat)) (h : (keys d).Nodup) :
    (keys (applyHistory ops d)).Nodup := by
  induction ops generalizing d with
  | nil => exact h
  | cons op rest ih =>
    exact ih _ (nodup_keys_set d op.key op.value op.ttl op.time h)

theorem lookup_filter {α : Type} (d : List (String × α × Nat))
    (p : String × α × Nat → Bool) (k : String) (h : (keys d).Nodup) :
    lookup (d.filter p) k
      = match lookup d k with
        | some (v, e) => if p (k, v, e) then some (v, e) else none
        | none => none := by
  induction d with
  | nil => rfl
  | cons hd tl ih =>
    obtain ⟨k₁, v₁, e₁⟩ := hd
    simp only [keys, List.map_cons, List.nodup_cons] at h
    by_cases hk : k₁ = k
    · subst hk
      have htl : lookup tl k₁ = none :=
        lookup_eq_none_of_not_mem tl k₁ (by simpa [keys] using h.1)
      by_cases hp : p (k₁, v₁, e₁)
      · simp [List.filter_cons, hp, lookup, htl]
      · have hnone : lookup (tl.filter p) k₁ = none := by
          rw [ih (by simpa [keys] using h.2), htl]
        simp [List.filter_cons, hp, lookup, htl, hnone]
    · by_cases hp : p (k₁, v₁, e₁)
      · simp only [List.filter_cons, if_pos hp, lookup, if_neg hk]
        exact ih (by simpa [keys] using h.2)
      · simp only [List.filter_cons, if_neg hp, lookup, if_neg hk]
        exact ih (by simpa [keys] using h.2)

end FileCache

/-- C1: the claim as stated is false at the TTL boundary — `Cache.get`
uses a strict `time.time() > expiration` test, so an entry set at time 10
with `ttl = 5` is still returned at time 15, where the elapsed time (5)
is ≥ the ttl (5) and the claim demands absence. -/
theorem C1_cache_ttl_counterexample :
    (FileCache.get
        (FileCache.set ([] : List (String × Nat × Nat)) "k" 42 (some 5) 10)
        "k" 15).1 = some 42 := by
  decide

/-- C1 (amended): for every entry stored via `Cache.set` with `ttl = T` at
a positive wall-clock time `t₀`, `Cache.get` returns the stored value when
the elapsed time is ≤ T, and returns absent — deleting the entry — when
the elapsed time is > T; an entry set with `ttl = none` is returned at
any later time. -/
theorem C1_cache_ttl (α : Type) (d : List (String × α × Nat)) (k : String)
    (v : α) (T t₀ : Nat) (h₀ : 0 < t₀) :
    (∀ t, t ≤ t₀ + T →
        (FileCache.get (FileCache.set d k v (some T) t₀) k t).1 = some v)
    ∧ (∀ t, t₀ + T < t →
        (FileCache.get (FileCache.set d k v (some T) t₀) k t).1 = none
        ∧ FileCache.lookup
            (FileCache.get (FileCache.set d k v (some T) t₀) k t).2 k = none)
    ∧ (∀ t, (FileCache.get (FileCache.set d k v none t₀) k t).1 = some v) := by
  refine ⟨?_, ?_, ?_⟩
  · intro t ht
    simp only [FileCache.get, FileCache.lookup_set_self]
    rw [if_neg]
    intro hc
    omega
  · intro t ht
    simp only [FileCache.get, FileCache.lookup_set_self]
    rw [if_pos (by omega)]
    exact ⟨rfl, FileCache.lookup_eraseKey _ k⟩
  · intro t
    simp only [FileCache.get, FileCache.lookup_set_self]
    rw [if_neg]
    intro hc
    omega

theorem C1_cache_ttl_witness :
    0 < 10
    ∧ (FileCache.get
        (FileCache.set ([] : List (String × Nat × Nat)) "k" 7 (some 5) 10)
        "k" 12).1 = some 7 :=
  ⟨by decide, (C1_cache_ttl Nat [] "k" 7 5 10 (by decide)).1 12 (by decide)⟩

theorem lookup_save (d : List (String × FileCache.PyValue × Nat)) (k : String) :
    FileCache.lookup (FileCache.save d) k
      = (FileCache.lookup d k).map
          (fun ve => (FileCache.jsonValue ve.1, ve.2)) := by
  induction d with
  | nil => rfl
  | cons hd tl ih =>
    obtain ⟨k₁, v, e⟩ := hd
    show FileCache.lookup
        ((k₁, FileCache.jsonValue v, e) :: FileCache.save tl) k = _
    simp only [FileCache.lookup]
    by_cases hk : k₁ = k
    · rw [if_pos hk, if_pos hk]
      rfl
    · rw [if_neg hk, if_neg hk]
      exact ih

theorem keys_save (d : List (String × FileCache.PyValue × Nat)) :
    FileCache.keys (FileCache.save d) = FileCache.keys d := by
  simp only [FileCache.keys, FileCache.save, List.map_map]
  rfl

/-- C7: counterexample — the claim's "same values" fails for the `Decimal`
prices the program itself caches: `Cache._save` serializes the store with
`DecimalEncoder`, which replaces a `Decimal` by `str(obj)`, and the plain
`json.load` in `Cache.__init__` never converts it back, so after one
`set` of an unexpired Decimal entry the original cache holds the Decimal
while the freshly constructed cache holds its string form — a different
value. -/
theorem C7_cache_durability_counterexample :
    FileCache.lookup
        (FileCache.applyHistory
          [{ key := "token", value := FileCache.PyValue.decimal 5,
             ttl := none, time := 10 }] []) "token"
      = some (FileCache.PyValue.decimal 5, 0)
    ∧ FileCache.lookup
        (FileCache.load (FileCache.save
          (FileCache.applyHistory
            [{ key := "token", value := FileCache.PyValue.decimal 5,
               ttl := none, time := 10 }] [])) 20) "token"
      ≠ some (FileCache.PyValue.decimal 5, 0) := by
  constructor
  · rfl
  · intro h
    have hval : FileCache.lookup
        (FileCache.load (FileCache.save
          (FileCache.applyHistory
            [{ key := "token", value := FileCache.PyValue.decimal 5,
               ttl := none, time := 10 }] [])) 20) "token"
      = some (FileCache.PyValue.str (FileCache.decimalStr 5), 0) := rfl
    rw [hval] at h
    injection h with h₁
    injection h₁ with h₂ h₃
    exact FileCache.PyValue.noConfusion h₂

/-- C7 (amended): replaying any sequence of `Cache.set` operations on an
initially empty cache and then constructing a fresh `Cache` instance over
the saved file yields, for every key, exactly the entry the original
cache held if it is unexpired at load time — with the same expiration and
with its value in JSON-serialized form (`jsonValue`: Decimal values come
back as their decimal strings, JSON-native strings and ints come back
unchanged) — while expired entries are silently dropped
(order-independent: the statement is per-key). -/
theorem C7_cache_durability (ops : List (FileCache.SetOp FileCache.PyValue))
    (t : Nat) (k : String) :
    FileCache.lookup
        (FileCache.load (FileCache.save (FileCache.applyHistory ops [])) t) k
      = match FileCache.lookup (FileCache.applyHistory ops []) k with
        | some (v, e) =>
          if e = 0 ∨ t < e then some (FileCache.jsonValue v, e) else none
        | none => none := by
  have hnd : (FileCache.keys
      (FileCache.save (FileCache.applyHistory ops
        ([] : List (String × FileCache.PyValue × Nat))))).Nodup := by
    rw [keys_save]
    exact FileCache.nodup_keys_applyHistory ops [] (by simp [FileCache.keys])
  show FileCache.lookup
      ((FileCache.save (FileCache.applyHistory ops [])).filter
        (fun e => decide (e.2.2 = 0 ∨ t < e.2.2))) k = _
  rw [FileCache.lookup_filter _ _ k hnd, lookup_save]
  cases FileCache.lookup (FileCache.applyHistory ops
      ([] : List (String × FileCache.PyValue × Nat))) k with
  | none => rfl
  | some ve =>
    obtain ⟨v, e⟩ := ve
    by_cases he : e = 0 ∨ t < e
    · simp [he]
    · simp [he]

theorem tryFeeds_first_accepted (pre post : List Aggregator.FeedOutcome) (p : ℚ)
    (hpre : ∀ f ∈ pre, ¬ Aggregator.accepted f) (hp : 0 < p) :
    Aggregator.tryFeeds
        (pre ++ Aggregator.FeedOutcome.returns (some p) :: post)
      = (some p, pre.length + 1) := by
  induction pre with
  | nil => simp [Aggregator.tryFeeds, hp]
  | cons f rest ih =>
    have hf : ¬ Aggregator.accepted f := hpre f (List.mem_cons_self f rest)
    have hrest : ∀ g ∈ rest, ¬ Aggregator.accepted g :=
      fun g hg => hpre g (List.mem_cons_of_mem f hg)
    cases f with
    | raises =>
      simp [Aggregator.tryFeeds, ih hrest]
    | returns q =>
      cases q with
      | none => simp [Aggregator.tryFeeds, ih hrest]
      | some v =>
        have hv : ¬ (0 < v) := fun h => hf h
        simp [Aggregator.tryFeeds, hv, ih hrest]

/-- C2: on a cache miss, `PriceFeedAggregator.get_price` consults the
configured feeds in priority order; if the feeds before position `i` all
fail (raise, return nothing, or return a non-positive price) and the feed
at position `i` returns a strictly positive price `p`, then the result is
`p`, `p` is cached under the token's key, and exactly `i + 1` feeds are
consulted — the later feeds are never invoked and no averaging occurs. -/
theorem C2_aggregator_fallback (pre post : List Aggregator.FeedOutcome) (p : ℚ)
    (hpre : ∀ f ∈ pre, ¬ Aggregator.accepted f) (hp : 0 < p) :
    Aggregator.get_price none
        (pre ++ Aggregator.FeedOutcome.returns (some p) :: post)
      = (some p, some p, pre.length + 1) := by
  simp [Aggregator.get_price, tryFeeds_first_accepted pre post p hpre hp]

theorem C2_aggregator_fallback_witness :
    (∀ f ∈ [Aggregator.FeedOutcome.raises], ¬ Aggregator.accepted f)
    ∧ (0 : ℚ) < 5
    ∧ Aggregator.get_price none
        [Aggregator.FeedOutcome.raises,
         Aggregator.FeedOutcome.returns (some 5),
         Aggregator.FeedOutcome.returns (some 7)]
      = (some 5, some 5, 2) :=
  ⟨by decide, by norm_num,
    C2_aggregator_fallback [Aggregator.FeedOutcome.raises]
      [Aggregator.FeedOutcome.returns (some 7)] 5 (by decide) (by norm_num)⟩

theorem retry_loop_fails_spec (α : Type) (op : Nat → Retry.CallOutcome α)
    (dur : Nat → Nat) (d : Nat) (hop : ∀ n, op n = Retry.CallOutcome.fails)
    (hd : ∀ n, dur n ≤ d) :
    ∀ B n elapsed a, Retry.REQUEST_TIMEOUT - elapsed ≤ B →
      2 ^ a ≤ elapsed + 1 → elapsed ≤ 22 →
      (Retry.loop op dur n elapsed a).1 = none
      ∧ (Retry.loop op dur n elapsed a).2 ≤ 22 + d := by
  intro B
  induction B with
  | zero =>
    intro n elapsed a hB _h2 h22
    have hto : Retry.REQUEST_TIMEOUT ≤ elapsed + dur n := by
      simp only [Retry.REQUEST_TIMEOUT] at *
      omega
    rw [Retry.loop, hop n]
    simp only [if_pos hto]
    refine ⟨trivial, ?_⟩
    have := hd n
    simp only [Retry.REQUEST_TIMEOUT] at *
    omega
  | succ B ih =>
    intro n elapsed a hB h2 h22
    rw [Retry.loop, hop n]
    by_cases hto : Retry.REQUEST_TIMEOUT ≤ elapsed + dur n
    · simp only [if_pos hto]
      refine ⟨trivial, ?_⟩
      have := hd n
      simp only [Retry.REQUEST_TIMEOUT] at *
      omega
    · simp only [if_neg hto]
      simp only [Retry.REQUEST_TIMEOUT] at hto
      have he1 : elapsed + dur n ≤ 14 := by omega
      have ha : a < 4 := by
        by_contra hc
        push_neg at hc
        have : 2 ^ 4 ≤ 2 ^ a := Nat.pow_le_pow_right (by norm_num) hc
        omega
      have hmin : min 30 (2 ^ a) = 2 ^ a := by
        have h8 : 2 ^ a ≤ 2 ^ 3 := Nat.pow_le_pow_right (by norm_num) (by omega)
        exact min_eq_right (by omega)
      have hpow : 2 ^ a ≤ 8 := by
        have : 2 ^ a ≤ 2 ^ 3 := Nat.pow_le_pow_right (by norm_num) (by omega)
        omega
      refine ih (n + 1) (elapsed + dur n + min 30 (2 ^ a)) (a + 1) ?_ ?_ ?_
      · rw [hmin]
        simp only [Retry.REQUEST_TIMEOUT] at hB ⊢
        have h1 : 1 ≤ 2 ^ a := Nat.one_le_two_pow
        omega
      · rw [hmin, pow_succ]
        omega
      · rw [hmin]
        omega

/-- C3: for an operation that fails on every invocation, each invocation
taking at most `d` seconds, `retry_forever` returns the unavailable
result `none` — it neither raises nor loops forever — at an elapsed time
of at most `REQUEST_TIMEOUT` (15 s) plus an epsilon of the final backoff
delay (at most 7 s) plus the final call duration `d`. -/
theorem C3_retry_bounded (α : Type) (op : Nat → Retry.CallOutcome α)
    (dur : Nat → Nat) (d : Nat) (hop : ∀ n, op n = Retry.CallOutcome.fails)
    (hd : ∀ n, dur n ≤ d) :
    (Retry.retry_forever op dur).1 = none
    ∧ (Retry.retry_forever op dur).2 ≤ Retry.REQUEST_TIMEOUT + 7 + d := by
  have h := retry_loop_fails_spec α op dur d hop hd Retry.REQUEST_TIMEOUT 0 0 0
    (by simp) (by norm_num) (by norm_num)
  exact ⟨h.1, by simpa [Retry.retry_forever, Retry.REQUEST_TIMEOUT] using h.2⟩

theorem C3_retry_bounded_witness :
    (Retry.retry_forever (fun _ => Retry.CallOutcome.fails (α := Nat))
        (fun _ => 0)).1 = none
    ∧ (Retry.retry_forever (fun _ => Retry.CallOutcome.fails (α := Nat))
        (fun _ => 0)).2 ≤ Retry.REQUEST_TIMEOUT + 7 + 0 :=
  C3_retry_bounded Nat (fun _ => Retry.CallOutcome.fails) (fun _ => 0) 0
    (fun _ => rfl) (fun _ => Nat.le_refl 0)

/-- C4: two counterexamples to the claim as stated.  First, a rate-limit
signal on a fresh endpoint (`_handle_rate_limit` calls `mark_error`) does
NOT move it to DISABLED — it stays active until the third consecutive
error.  Second, a successful call (`mark_used`) does NOT reset the
consecutive-error counter: an endpoint with 2 errors still has 2 errors
after being used; only a cooldown-elapsed `check_cooldown` resets it. -/
theorem C4_endpoint_state_machine_counterexample :
    (Endpoint.mark_error (Endpoint.init "rpc" 300)).is_active = true
    ∧ (Endpoint.mark_used
        (Endpoint.mark_error (Endpoint.mark_error (Endpoint.init "rpc" 300)))
        100).error_count = 2 := by
  decide

/-- C4 (amended): `mark_error` increments the consecutive-error counter
and moves the endpoint ACTIVE → DISABLED exactly when it reaches 3
(rate-limit signals count as single errors); a DISABLED endpoint is
unusable (`can_use` is false) and `check_cooldown` reactivates it — with
the error counter reset to 0 — precisely once the cooldown has elapsed
since its last use, never before; the error counter is not reset by
successful calls; and `Web3ProviderPool.get_provider` never selects a
disabled provider. -/
theorem C4_endpoint_state_machine (e : Endpoint.RPCEndpoint) (now₁ now₂ t : Nat)
    (p : Endpoint.ProviderPool) (u : String) (q : Endpoint.ProviderPool) :
    ((Endpoint.mark_error e).error_count = e.error_count + 1
      ∧ (Endpoint.mark_error e).is_active
          = (if 3 ≤ e.error_count + 1 then false else e.is_active))
    ∧ (e.is_active = false → Endpoint.can_use e now₁ = false)
    ∧ (e.is_active = false → e.last_used = some t → t + e.cooldown ≤ now₁ →
        Endpoint.check_cooldown e now₁ = (true, Endpoint.reset_errors e)
        ∧ (Endpoint.reset_errors e).error_count = 0
        ∧ (Endpoint.reset_errors e).is_active = true)
    ∧ (e.is_active = false → e.last_used = some t → now₂ < t + e.cooldown →
        Endpoint.check_cooldown e now₂ = (false, e))
    ∧ ((Endpoint.mark_used e now₁).error_count = e.error_count)
    ∧ (Endpoint.get_provider p = some (u, q) → u ∉ p.disabled) := by
  refine ⟨⟨rfl, rfl⟩, ?_, ?_, ?_, rfl, ?_⟩
  · intro h
    simp [Endpoint.can_use, h]
  · intro h ht hc
    refine ⟨?_, rfl, rfl⟩
    simp [Endpoint.check_cooldown, ht, h, hc]
  · intro h ht hc
    simp only [Endpoint.check_cooldown, ht]
    rw [if_neg]
    intro hcon
    omega
  · intro hp
    simp only [Endpoint.get_provider] at hp
    split at hp
    · exact Option.noConfusion hp
    · next hne =>
      rw [Option.some.injEq, Prod.mk.injEq] at hp
      have hm : u ∈ p.urls.filter (fun v => decide (v ∉ p.disabled)) := by
        rw [← hp.1]
        exact List.get_mem _ _ _
      exact of_decide_eq_true (List.mem_filter.mp hm).2

theorem C4_endpoint_state_machine_witness :
    ({ url := "rpc", last_used := some 10, cooldown := 5,
       is_active := false, error_count := 3 } : Endpoint.RPCEndpoint).is_active = false
    ∧ Endpoint.check_cooldown
        { url := "rpc", last_used := some 10, cooldown := 5,
          is_active := false, error_count := 3 } 15
      = (true, Endpoint.reset_errors
          { url := "rpc", last_used := some 10, cooldown := 5,
            is_active := false, error_count := 3 })
    ∧ Endpoint.check_cooldown
        { url := "rpc", last_used := some 10, cooldown := 5,
          is_active := false, error_count := 3 } 12
      = (false, { url := "rpc", last_used := some 10, cooldown := 5,
                  is_active := false, error_count := 3 })
    ∧ "a" ∉ (⟨["a", "b"], ["b"], 0, 0⟩ : Endpoint.ProviderPool).disabled := by
  have h := C4_endpoint_state_machine
    { url := "rpc", last_used := some 10, cooldown := 5,
      is_active := false, error_count := 3 } 15 12 10
    ⟨["a", "b"], ["b"], 0, 0⟩ "a"
    ⟨["a", "b"], ["b"], 0, 1⟩
  exact ⟨rfl, (h.2.2.1 rfl rfl (by decide)).1,
    h.2.2.2.1 rfl rfl (by decide), h.2.2.2.2.2 (by decide)⟩

theorem collect_range (read : Nat → Discovery.ReadResult) (f : Nat → String)
    (n : Nat) (hvalid : ∀ j, j < n → read j = Discovery.ReadResult.addr (f j))
    (hzero : ∀ j, n ≤ j → read j = Discovery.ReadResult.zero) :
    ∀ k m i, i + m = n →
      Discovery.collectLoanAddresses read (m + 1 + k) i = (List.range' i m).map f := by
  intro k
  intro m
  induction m with
  | zero =>
    intro i hi
    simp only [Nat.add_zero] at hi
    subst hi
    have h1 : 1 + k = k + 1 := Nat.add_comm 1 k
    rw [h1]
    simp only [Discovery.collectLoanAddresses, hzero i (Nat.le_refl i)]
    simp [List.range']
  | succ m ih =>
    intro i hi
    have hlt : i < n := by omega
    have h1 : m + 1 + 1 + k = (m + 1 + k) + 1 := by omega
    rw [h1]
    simp only [Discovery.collectLoanAddresses, hvalid i hlt]
    rw [ih (i + 1) (by omega)]
    simp [List.range']

/-- C5: for an indexed-read function that returns valid addresses at
indices 0..n-1 and the zero-address sentinel at every index ≥ n, the
address-collection loop of `ContractQueries.get_loans` reads
sequentially increasing indices and returns exactly the n addresses
preceding the first zero address, for every sufficiently large iteration
bound — i.e. the loop terminates at the sentinel after n+1 reads. -/
theorem C5_discovery_termination (read : Nat → Discovery.ReadResult)
    (f : Nat → String) (n : Nat)
    (hvalid : ∀ j, j < n → read j = Discovery.ReadResult.addr (f j))
    (hzero : ∀ j, n ≤ j → read j = Discovery.ReadResult.zero) :
    ∀ k, Discovery.collectLoanAddresses read (n + 1 + k) 0 = (List.range n).map f := by
  intro k
  have h := collect_range read f n hvalid hzero k n 0 (Nat.zero_add n)
  rw [h, List.range_eq_range']

theorem C5_discovery_termination_witness :
    Discovery.collectLoanAddresses
        (fun j => if j < 5 then Discovery.ReadResult.addr (Nat.repr j)
                  else Discovery.ReadResult.zero) 6 0
      = (List.range 5).map Nat.repr :=
  C5_discovery_termination _ Nat.repr 5
    (fun j hj => by rw [if_pos hj])
    (fun j hj => by rw [if_neg (by omega)]) 0

/-- C6: the per-call loop of `batch_call_contract` yields exactly one
result per call: position i holds absent (`none`) exactly when call i
raised, and call i's value intact otherwise — so a single raising call
never disturbs its sibling calls' results. -/
theorem C6_batch_isolation (α : Type) (calls : List (Except Unit α)) :
    (Batch.batchCallResults calls).length = calls.length
    ∧ (∀ i (h : i < calls.length),
        (Batch.batchCallResults calls).get
            ⟨i, by simpa [Batch.batchCallResults] using h⟩
          = match calls.get ⟨i, h⟩ with
            | Except.ok v => some v
            | Except.error _ => none) := by
  refine ⟨by simp [Batch.batchCallResults], ?_⟩
  intro i h
  simp only [Batch.batchCallResults, List.get_eq_getElem, List.getElem_map]

theorem C6_batch_isolation_witness :
    (Batch.batchCallResults
        [Except.ok 10, Except.ok 20, Except.ok 30,
         Except.error (), Except.ok 50]).length = 5
    ∧ (Batch.batchCallResults
        [Except.ok 10, Except.ok 20, Except.ok 30,
         Except.error (), Except.ok 50]).get ⟨3, by decide⟩ = none
    ∧ (Batch.batchCallResults
        [Except.ok 10, Except.ok 20, Except.ok 30,
         Except.error (), Except.ok 50]).get ⟨4, by decide⟩ = some 50 := by
  have h := C6_batch_isolation Nat
    [Except.ok 10, Except.ok 20, Except.ok 30, Except.error (), Except.ok 50]
  exact ⟨h.1, h.2 3 (by decide), h.2 4 (by decide)⟩

/-- C8: counterexample — the indicator list checked by
`_retry_with_backoff` is `['429', 'rate', 'limit', 'unauthorized', '401']`
and does NOT include "403": an error whose text contains the substring
"403" (and none of the listed indicators) is classified as transient —
`retryStep` increments the attempt counter and sleeps — where the claim
demands rate-limit classification with immediate rotation. -/
theorem C8_rate_limit_classification_counterexample :
    Classify.containsSub
        (Classify.lowerChars "HTTP 403 Forbidden".data) "403".data = true
    ∧ Classify.isRateLimitError "HTTP 403 Forbidden".data = false
    ∧ Classify.retryStep 0 "HTTP 403 Forbidden".data true
        = Classify.RetryAction.sleepRetry 4 1 := by
  decide

/-- C8 (amended): an error whose lowercased text contains one of the
substrings "429", "rate", "limit", "unauthorized" or "401" — 403-errors
are covered only via their "unauthorized"/"401"-free text containing none
of these, i.e. "403" itself is not in the list — is classified as a
rate-limit signal: the backoff attempt counter is not incremented and the
step signals endpoint rotation and retries immediately (re-raising only
when rotation finds no endpoint); every other error is transient: the
counter increments and, while retries remain, the step sleeps
`min(30, retry_delay * 2^attempt)` seconds, which with `max_retries = 3`
always equals the uncapped `retry_delay * 2^attempt` of the code. -/
theorem C8_rate_limit_classification (msg : List Char) (attempt : Nat) :
    (Classify.isRateLimitError msg = true →
        Classify.retryStep attempt msg true = Classify.RetryAction.rotateRetry
        ∧ Classify.retryStep attempt msg false = Classify.RetryAction.raiseErr)
    ∧ (Classify.isRateLimitError msg = false →
        ∀ rotated, attempt + 1 < Classify.maxRetries →
        Classify.retryStep attempt msg rotated
          = Classify.RetryAction.sleepRetry
              (min 30 (Classify.retryDelay * 2 ^ (attempt + 1))) (attempt + 1)) := by
  constructor
  · intro h
    constructor
    · simp [Classify.retryStep, h]
    · simp [Classify.retryStep, h]
  · intro h rotated hlt
    simp only [Classify.maxRetries] at hlt
    have hle : attempt + 1 ≤ 2 := by omega
    have hpow : 2 ^ (attempt + 1) ≤ 2 ^ 2 := Nat.pow_le_pow_right (by norm_num) hle
    have hmin : min 30 (Classify.retryDelay * 2 ^ (attempt + 1))
        = Classify.retryDelay * 2 ^ (attempt + 1) := by
      apply min_eq_right
      simp only [Classify.retryDelay]
      omega
    rw [hmin]
    simp [Classify.retryStep, h, Classify.maxRetries]
    omega

theorem C8_rate_limit_classification_witness :
    Classify.isRateLimitError "error 429 too many requests".data = true
    ∧ Classify.retryStep 1 "error 429 too many requests".data true
        = Classify.RetryAction.rotateRetry
    ∧ Classify.isRateLimitError "connection reset".data = false
    ∧ Classify.retryStep 1 "connection reset".data true
        = Classify.RetryAction.sleepRetry
            (min 30 (Classify.retryDelay * 2 ^ 2)) 2 := by
  have h1 := C8_rate_limit_classification "error 429 too many requests".data 1
  have h2 := C8_rate_limit_classification "connection reset".data 1
  exact ⟨by decide, (h1.1 (by decide)).1, by decide,
    h2.2 (by decide) true (by decide)⟩

theorem completions_gap (k : Nat) (arrival : Nat → ℚ) (n : Nat) :
    Limiter.completions k arrival n + 1 / k ≤ Limiter.completions k arrival (n + 1) := by
  show Limiter.completions k arrival n + 1 / k
      ≤ Limiter.waitCompletion k (Limiter.completions k arrival n) (arrival (n + 1))
  unfold Limiter.waitCompletion
  split
  · exact le_refl _
  · next h =>
    push_neg at h
    linarith

theorem completions_chain (k : Nat) (arrival : Nat → ℚ) (i m : Nat) :
    Limiter.completions k arrival i + (m : ℚ) / k
      ≤ Limiter.completions k arrival (i + m) := by
  induction m with
  | zero => simp
  | succ m ih =>
    have hg := completions_gap k arrival (i + m)
    have hc : ((m + 1 : Nat) : ℚ) / k = (m : ℚ) / k + 1 / k := by
      push_cast
      ring
    rw [hc, ← add_assoc]
    calc Limiter.completions k arrival i + (m : ℚ) / k + 1 / k
        ≤ Limiter.completions k arrival (i + m) + 1 / k := by linarith
      _ ≤ Limiter.completions k arrival (i + m + 1) := hg

/-- C9: with `requests_per_second = k ≥ 1`, for every trace of `wait()`
calls serialized by the limiter's lock (arbitrary clock values on entry)
and every window start `T`, at most k of the calls complete within the
1-second sliding window `[T, T+1)` — the limiter makes callers sleep
rather than exceed the bound, for any number of callers. -/
theorem C9_rate_limiter_bound (k : Nat) (hk : 1 ≤ k) (arrival : Nat → ℚ)
    (T : ℚ) (S : Finset Nat)
    (hS : ∀ i ∈ S, T ≤ Limiter.completions k arrival i
          ∧ Limiter.completions k arrival i < T + 1) :
    S.card ≤ k := by
  by_contra hcard
  push_neg at hcard
  have hne : S.Nonempty := Finset.card_pos.mp (by omega)
  have ha : S.min' hne ∈ S := S.min'_mem hne
  have hb : S.max' hne ∈ S := S.max'_mem hne
  have hsub : S ⊆ Finset.Icc (S.min' hne) (S.max' hne) := by
    intro x hx
    rw [Finset.mem_Icc]
    exact ⟨S.min'_le x hx, S.le_max' x hx⟩
  have hcard2 : S.card ≤ S.max' hne + 1 - S.min' hne := by
    have := Finset.card_le_card hsub
    rwa [Nat.card_Icc] at this
  have hk2 : k ≤ S.max' hne - S.min' hne := by omega
  have hchain := completions_chain k arrival (S.min' hne)
    (S.max' hne - S.min' hne)
  rw [Nat.add_sub_cancel' (S.min'_le _ hb |>.trans (le_refl _))] at hchain
  have hkq : (k : ℚ) ≤ ((S.max' hne - S.min' hne : Nat) : ℚ) := by
    exact_mod_cast hk2
  have hkpos : (0 : ℚ) < (k : ℚ) := by exact_mod_cast hk
  have hone : (1 : ℚ) ≤ ((S.max' hne - S.min' hne : Nat) : ℚ) / k := by
    rw [le_div_iff₀ hkpos]
    linarith
  have h1 := (hS _ ha).1
  have h2 := (hS _ hb).2
  have := hchain
  nlinarith [hchain, hone, h1, h2]

theorem C9_rate_limiter_bound_witness :
    1 ≤ 1
    ∧ (∀ i ∈ ({0} : Finset Nat),
        (1 : ℚ) ≤ Limiter.completions 1 (fun _ => 0) i
        ∧ Limiter.completions 1 (fun _ => 0) i < 1 + 1)
    ∧ ({0} : Finset Nat).card ≤ 1 := by
  refine ⟨le_refl 1, ?_, ?_⟩
  · intro i hi
    rw [Finset.mem_singleton] at hi
    subst hi
    constructor
    · show (1 : ℚ) ≤ Limiter.waitCompletion 1 0 0
      unfold Limiter.waitCompletion
      norm_num
    · show Limiter.waitCompletion 1 0 0 < 1 + 1
      unfold Limiter.waitCompletion
      norm_num
  · refine C9_rate_limiter_bound 1 (le_refl 1) (fun _ => 0) 1 {0} ?_
    intro i hi
    rw [Finset.mem_singleton] at hi
    subst hi
    constructor
    · show (1 : ℚ) ≤ Limiter.waitCompletion 1 0 0
      unfold Limiter.waitCompletion
      norm_num
    · show Limiter.waitCompletion 1 0 0 < 1 + 1
      unfold Limiter.waitCompletion
      norm_num

theorem lookupLoan_mem (cache : List (String × Loans.LoanInfo)) (key : String)
    (info : Loans.LoanInfo) (h : Loans.lookupLoan cache key = some info) :
    (key, info) ∈ cache := by
  induction cache with
  | nil => exact absurd h (by simp [Loans.lookupLoan])
  | cons kv rest ih =>
    obtain ⟨k, inf⟩ := kv
    simp only [Loans.lookupLoan] at h
    by_cases hk : k = key
    · rw [if_pos hk] at h
      injection h with h₁
      subst hk
      subst h₁
      exact List.mem_cons_self _ _
    · rw [if_neg hk] at h
      exact List.mem_cons_of_mem _ (ih h)

theorem get_loan_info_cache_hit (cache : List (String × Loans.LoanInfo))
    (adminAddr user : String) (st : Option (List Nat)) (inf : Loans.LoanInfo)
    (hl : Loans.lookupLoan cache (adminAddr ++ "_" ++ user) = some inf) :
    Loans.get_loan_info cache adminAddr user st = (some inf, cache) := by
  unfold Loans.get_loan_info
  rw [hl]

theorem get_loan_info_miss_none (cache : List (String × Loans.LoanInfo))
    (adminAddr user : String)
    (hl : Loans.lookupLoan cache (adminAddr ++ "_" ++ user) = none) :
    Loans.get_loan_info cache adminAddr user none = (none, cache) := by
  unfold Loans.get_loan_info
  rw [hl]

theorem get_loan_info_miss_some (cache : List (String × Loans.LoanInfo))
    (adminAddr user : String) (res : List Nat)
    (hl : Loans.lookupLoan cache (adminAddr ++ "_" ++ user) = none) :
    Loans.get_loan_info cache adminAddr user (some res)
      = if res.length < 3 then (none, cache)
        else
          if res.getD 2 0 = 0 then (none, cache)
          else
            (some { user_address := user, debt := res.getD 2 0,
                    collateral := res.getD 0 0, is_liquidated := false },
             (adminAddr ++ "_" ++ user,
              { user_address := user, debt := res.getD 2 0,
                collateral := res.getD 0 0, is_liquidated := false }) :: cache) := by
  unfold Loans.get_loan_info
  rw [hl]

theorem multiStep_eq_some (adminAddr : String) (states : String → Option (List Nat))
    (acc : List Loans.LoanInfo × List (String × Loans.LoanInfo)) (u : String)
    (inf : Loans.LoanInfo)
    (hg : (Loans.get_loan_info acc.2 adminAddr u (states u)).1 = some inf) :
    Loans.multiStep adminAddr states acc u
      = if 0 < inf.debt
          then (acc.1 ++ [inf], (Loans.get_loan_info acc.2 adminAddr u (states u)).2)
          else (acc.1, (Loans.get_loan_info acc.2 adminAddr u (states u)).2) := by
  unfold Loans.multiStep
  rw [hg]

theorem multiStep_eq_none (adminAddr : String) (states : String → Option (List Nat))
    (acc : List Loans.LoanInfo × List (String × Loans.LoanInfo)) (u : String)
    (hg : (Loans.get_loan_info acc.2 adminAddr u (states u)).1 = none) :
    Loans.multiStep adminAddr states acc u
      = (acc.1, (Loans.get_loan_info acc.2 adminAddr u (states u)).2) := by
  unfold Loans.multiStep
  rw [hg]

theorem multi_foldl_pos (adminAddr : String) (states : String → Option (List Nat)) :
    ∀ (users : List String)
      (acc : List Loans.LoanInfo × List (String × Loans.LoanInfo)),
      (∀ x ∈ acc.1, 0 < x.debt) →
      ∀ info, info ∈ (users.foldl (Loans.multiStep adminAddr states) acc).1 →
        0 < info.debt := by
  intro users
  induction users with
  | nil =>
    intro acc hacc info h
    exact hacc info h
  | cons u rest ih =>
    intro acc hacc info h
    rw [List.foldl_cons] at h
    refine ih (Loans.multiStep adminAddr states acc u) ?_ info h
    intro x hx
    cases hg : (Loans.get_loan_info acc.2 adminAddr u (states u)).1 with
    | none =>
      rw [multiStep_eq_none adminAddr states acc u hg] at hx
      exact hacc x hx
    | some inf =>
      rw [multiStep_eq_some adminAddr states acc u inf hg] at hx
      by_cases hd : 0 < inf.debt
      · rw [if_pos hd] at hx
        rcases List.mem_append.mp hx with hx1 | hx2
        · exact hacc x hx1
        · rw [List.mem_singleton] at hx2
          subst hx2
          exact hd
      · rw [if_neg hd] at hx
        exact hacc x hx

/-- C10: if every cached loan record has debt > 0 (as every record the
code inserts does), then `get_loan_info` only ever produces records with
debt strictly greater than 0 and preserves that cache invariant; a
cache-missed user whose `user_state` result reports zero debt yields no
record (`None`); and every element of the list `get_multiple_loan_info`
returns has debt strictly greater than 0, so zero-debt users are
omitted. -/
theorem C10_zero_debt_loans (cache : List (String × Loans.LoanInfo))
    (adminAddr user : String) (st : Option (List Nat))
    (hcache : ∀ kv ∈ cache, 0 < kv.2.debt) :
    (∀ info, (Loans.get_loan_info cache adminAddr user st).1 = some info →
        0 < info.debt)
    ∧ (∀ kv ∈ (Loans.get_loan_info cache adminAddr user st).2, 0 < kv.2.debt)
    ∧ (Loans.lookupLoan cache (adminAddr ++ "_" ++ user) = none →
        ∀ res, st = some res → res.getD 2 0 = 0 →
        (Loans.get_loan_info cache adminAddr user st).1 = none)
    ∧ (∀ (users : List String) (states : String → Option (List Nat)) info,
        info ∈ (Loans.get_multiple_loan_info cache adminAddr users states).1 →
        0 < info.debt) := by
  refine ⟨?_, ?_, ?_, ?_⟩
  · intro info hinfo
    cases hl : Loans.lookupLoan cache (adminAddr ++ "_" ++ user) with
    | some inf =>
      rw [get_loan_info_cache_hit cache adminAddr user st inf hl] at hinfo
      injection hinfo with h₁
      subst h₁
      exact hcache _ (lookupLoan_mem cache _ _ hl)
    | none =>
      cases st with
      | none =>
        rw [get_loan_info_miss_none cache adminAddr user hl] at hinfo
        exact absurd hinfo (by simp)
      | some res =>
        rw [get_loan_info_miss_some cache adminAddr user res hl] at hinfo
        by_cases h3 : res.length < 3
        · rw [if_pos h3] at hinfo
          exact absurd hinfo (by simp)
        · rw [if_neg h3] at hinfo
          by_cases hz : res.getD 2 0 = 0
          · rw [if_pos hz] at hinfo
            exact absurd hinfo (by simp)
          · rw [if_neg hz] at hinfo
            injection hinfo with h₁
            subst h₁
            exact Nat.pos_of_ne_zero hz
  · intro kv hkv
    cases hl : Loans.lookupLoan cache (adminAddr ++ "_" ++ user) with
    | some inf =>
      rw [get_loan_info_cache_hit cache adminAddr user st inf hl] at hkv
      exact hcache kv hkv
    | none =>
      cases st with
      | none =>
        rw [get_loan_info_miss_none cache adminAddr user hl] at hkv
        exact hcache kv hkv
      | some res =>
        rw [get_loan_info_miss_some cache adminAddr user res hl] at hkv
        by_cases h3 : res.length < 3
        · rw [if_pos h3] at hkv
          exact hcache kv hkv
        · rw [if_neg h3] at hkv
          by_cases hz : res.getD 2 0 = 0
          · rw [if_pos hz] at hkv
            exact hcache kv hkv
          · rw [if_neg hz] at hkv
            rcases List.mem_cons.mp hkv with hkv1 | hkv2
            · subst hkv1
              exact Nat.pos_of_ne_zero hz
            · exact hcache kv hkv2
  · intro hl res hst hz
    subst hst
    rw [get_loan_info_miss_some cache adminAddr user res hl]
    by_cases h3 : res.length < 3
    · rw [if_pos h3]
    · rw [if_neg h3, if_pos hz]
  · intro users states info hinfo
    exact multi_foldl_pos adminAddr states users ([], cache) (by simp) info hinfo

theorem C10_zero_debt_loans_witness :
    (∀ kv ∈ ([] : List (String × Loans.LoanInfo)), 0 < kv.2.debt)
    ∧ (Loans.get_loan_info [] "A" "u" (some [5, 0, 0])).1 = none
    ∧ (∀ info, (Loans.get_loan_info [] "A" "u" (some [7, 0, 3])).1 = some info →
        0 < info.debt) := by
  have h0 := C10_zero_debt_loans [] "A" "u" (some [5, 0, 0]) (by simp)
  have h1 := C10_zero_debt_loans [] "A" "u" (some [7, 0, 3]) (by simp)
  exact ⟨by simp, h0.2.2.1 rfl [5, 0, 0] rfl rfl, h1.1⟩

end LlamaSpec
